import Mathlib

/-!
Verification of the `getset` sequential task runner against its
natural-language specification.

The Rust sources are shallowly embedded: pure control flow becomes Lean
functions, and interactions with the operating system (pseudo-terminal
allocation, process spawn, wait, stream reads, wall-clock time, telemetry
HTTP calls) become explicit environment records supplied to those
functions.  Durations are modelled as natural numbers of abstract time
units.  Every definition mirrors a specific function of the repository,
named in its doc comment.
-/

namespace Getset

/-- The `CommandEntry` record from `src/config.rs`: `{ title, command }`. -/
structure CommandEntry where
  title : String
  command : String
deriving Repr, DecidableEq

/-! ## String helpers

Rust's `str::contains(substring)` and `str::to_lowercase` used by the
step filter (`src/cli.rs`) and by the error-message dispatch in
`run_command` (`src/runner.rs`).  Lowercasing is modelled per-character
with `Char.toLower`. -/

/-- Is `needle` an initial segment of `hay`?  (helper for substring search) -/
def leadsList (needle hay : List Char) : Bool :=
  match needle, hay with
  | [], _ => true
  | _ :: _, [] => false
  | a :: as, b :: bs => a == b && leadsList as bs

/-- Does `hay` contain `needle` as a contiguous sublist?  Models Rust
`str::contains` on the underlying character lists. -/
def containsList (hay needle : List Char) : Bool :=
  match hay with
  | [] => needle.isEmpty
  | _ :: t => leadsList needle hay || containsList t needle

/-- Rust `String::contains`: substring test. -/
def strContains (hay needle : String) : Bool :=
  containsList hay.data needle.data

/-- Rust `str::to_lowercase`, modelled as per-character lowercasing. -/
def strLower (s : String) : String :=
  ⟨s.data.map Char.toLower⟩

/-! ## Runner environments

`src/runner.rs` talks to the OS in three places per execution mode:
pseudo-terminal allocation (`pty_process::blocking::open`), process
spawn, and `wait`.  Each may fail with an OS error message; `wait`
otherwise yields the exit status, recorded here as `status.success()`
(true exactly when the exit code is 0).  Times are abstract: the number
of time units consumed by pseudo-terminal allocation and by the span
from the spawn call to wait completion. -/

/-- OS behaviour seen by `run_with_pty` (`src/runner.rs` lines 47-69). -/
structure PtyRunEnv where
  /-- result of `pty_process::blocking::open()`; `.error e` carries the OS message -/
  ptyOpen : Except String Unit
  /-- wall-time units consumed by the pseudo-terminal allocation -/
  ptyOpenTime : Nat
  /-- result of `.spawn(pts)` -/
  spawn : Except String Unit
  /-- result of `child.wait()`: OS error, or `status.success()` -/
  wait : Except String Bool
  /-- wall-time units from just before the spawn call to wait completion -/
  spawnToWaitTime : Nat
deriving Repr

/-- OS behaviour seen by `run_without_pty` (`src/runner.rs` lines 72-92). -/
structure PipedRunEnv where
  /-- result of `.spawn()` -/
  spawn : Except String Unit
  /-- result of `child.wait()`: OS error, or `status.success()` -/
  wait : Except String Bool
  /-- wall-time units from just before the spawn call to wait completion -/
  spawnToWaitTime : Nat
deriving Repr

/-- Model of `run_with_pty` (`src/runner.rs` 47-69).  The timer starts at function
entry (`let timer = Instant::now()` precedes the pseudo-terminal open),
so on success the returned elapsed time is the allocation time plus the
spawn-to-wait time.  Returns `(status.success(), elapsed)` or the
formatted error string. -/
def run_with_pty (_cmd : CommandEntry) (env : PtyRunEnv) :
    Except String (Bool × Nat) :=
  match env.ptyOpen with
  | .error e => .error ("Failed to open PTY: " ++ e)
  | .ok _ =>
    match env.spawn with
    | .error e => .error ("Failed to spawn command: " ++ e)
    | .ok _ =>
      match env.wait with
      | .error e => .error ("Failed to wait for command: " ++ e)
      | .ok success => .ok (success, env.ptyOpenTime + env.spawnToWaitTime)

/-- Model of `run_without_pty` (`src/runner.rs` 72-92).  The child is spawned with
`Stdio::inherit()` on stdin, stdout and stderr; the timer starts just
before the spawn, so the elapsed time is the spawn-to-wait span. -/
def run_without_pty (_cmd : CommandEntry) (env : PipedRunEnv) :
    Except String (Bool × Nat) :=
  match env.spawn with
  | .error e => .error ("Failed to spawn command: " ++ e)
  | .ok _ =>
    match env.wait with
    | .error e => .error ("Failed to wait for command: " ++ e)
    | .ok success => .ok (success, env.spawnToWaitTime)

/-- How `Command::new("sh")` wires a standard stream (`std::process::Stdio`). -/
inductive StreamWiring where
  | inherit
  | piped
deriving Repr, DecidableEq

/-- The stdio wiring of `run_without_pty`'s spawn (`src/runner.rs` 76-82):
`.stdin(Stdio::inherit()).stdout(Stdio::inherit()).stderr(Stdio::inherit())`. -/
def runWithoutPtyWiring : StreamWiring × StreamWiring × StreamWiring :=
  (.inherit, .inherit, .inherit)

/-- Environment of one `run_command` invocation (`src/runner.rs` 95-121):
whether `should_use_pty()` reported a terminal, plus the OS behaviour of
the pseudo-terminal attempt and of the piped-mode attempt. -/
structure RunEnv where
  /-- result of `should_use_pty()`: whether stdout is a terminal -/
  usePty : Bool
  pty : PtyRunEnv
  piped : PipedRunEnv
deriving Repr

/-- The mode-selection `match` inside `run_command` (`src/runner.rs`
98-112): prefer the pseudo-terminal run when stdout is a terminal, and
on an error whose message contains `"Failed to open PTY"` or
`"Failed to spawn command"` fall back to `run_without_pty`; any other
error propagates. -/
def selectRun (cmd : CommandEntry) (env : RunEnv) : Except String (Bool × Nat) :=
  if env.usePty then
    match run_with_pty cmd env.pty with
    | .ok result => .ok result
    | .error e =>
      if strContains e "Failed to open PTY" || strContains e "Failed to spawn command" then
        run_without_pty cmd env.piped
      else
        .error e
  else
    run_without_pty cmd env.piped

/-- Model of `run_command` (`src/runner.rs` 95-121): classify the selected run's
outcome.  Success returns the elapsed duration; a zero-successful run
becomes the fixed error string `"Command exited with non-zero status"`.
(The start/finish status lines it prints are write-only side effects and
carry no data back; they are not modelled.) -/
def run_command (cmd : CommandEntry) (env : RunEnv) : Except String Nat :=
  match selectRun cmd env with
  | .error e => .error e
  | .ok (success, elapsed) =>
    if success then .ok elapsed
    else .error "Command exited with non-zero status"

/-! ## Orchestrator (`src/cli.rs`, `UpCommand::run`)

The orchestrator filters the configured commands by the optional
`--step` substring, runs them in order through `runner::run_command`,
collects per-command durations for the report, stops at the first
failure, and fires best-effort telemetry.  Its interactions with the
world are: the per-command `RunEnv`s (indexed by attempt position), the
run timer readings, and the PlatformX call results (all discarded by
`let _ = ...` in the source). -/

/-- The filter predicate
`cmd.title.to_lowercase().contains(&step_filter.to_lowercase())`
(`src/cli.rs` 83-87). -/
def titleMatches (stepFilter : String) (cmd : CommandEntry) : Bool :=
  strContains (strLower cmd.title) (strLower stepFilter)

/-- The `--step` filter (`src/cli.rs` 79-88): keep, in order, the
entries whose lowercased title contains the lowercased filter. -/
def filterCommands (stepFilter : String) (cmds : List CommandEntry) :
    List CommandEntry :=
  cmds.filter (titleMatches stepFilter)

/-- The structured failure `UpCommand::run` returns
(`color_eyre` reports in the source): the "no steps matched" error of
`src/cli.rs` 90-96, or the `eyre!("A command failed").with_note(e)` of
line 135, whose note is the runner's error string. -/
inductive RunError where
  | noStepsMatched (stepFilter : String)
  | commandFailed (note : String)
deriving Repr, DecidableEq

/-- User-visible output of the orchestrator, in print order
(`run_command`'s own start/finish lines are summarised by `attempt`). -/
inductive OrchEvent where
  /-- the "Found N steps matching" listing (`src/cli.rs` 98-109) -/
  | infoMatches (titles : List String)
  /-- one `runner::run_command` invocation with its start/finish lines -/
  | attempt (title : String)
  /-- the "All set!" completion summary with total elapsed time (line 142) -/
  | allSet (elapsed : Nat)
  /-- `print_report` output: per-command durations and the total (160-178) -/
  | reportOut (entries : List (String × Nat)) (total : Nat)
deriving Repr, DecidableEq

/-- A PlatformX call made by the orchestrator (`send_start`,
`send_error`, `send_complete`); the call's own result is discarded. -/
inductive TeleCall where
  | start
  | error (elapsed : Nat) (message : String)
  | complete (elapsed : Nat)
deriving Repr, DecidableEq

/-- Results the PlatformX client would return for each of its three
operations; `UpCommand::run` ignores all of them
(`let _ = client.send_...` at `src/cli.rs` 75, 132, 153). -/
structure TeleResults where
  start : Except String Unit
  error : Except String Unit
  complete : Except String Unit
deriving Repr

/-- Timer readings of the orchestrator's `Instant::now()` timer
(`src/cli.rs` 71): its value when a command failure is observed
(line 127) and at loop completion (line 140). -/
structure OrchClock where
  atFailure : Nat
  atCompletion : Nat
deriving Repr

/-- What one `UpCommand::run` execution did and produced. -/
structure UpOutcome where
  /-- PlatformX calls fired, in order -/
  teleCalls : List TeleCall
  /-- printed output, in order -/
  events : List OrchEvent
  /-- titles handed to `runner::run_command`, in attempt order -/
  attempted : List String
  /-- the successful `CommandResult`s `(title, duration)`, in order -/
  results : List (String × Nat)
  /-- final result: `Ok(())` or the structured error -/
  result : Except RunError Unit
deriving Repr

/-- The command loop of `UpCommand::run` (`src/cli.rs` 116-138): run each
entry, pushing `(title, duration)` on success; on the first failure stop
and surface the runner's error string.  `envOf i` is the OS behaviour of
the `i`-th attempt. -/
def runLoop (envOf : Nat → RunEnv) :
    Nat → List CommandEntry → List String × List (String × Nat) × Except String Unit
  | _, [] => ([], [], .ok ())
  | i, c :: rest =>
    match run_command c (envOf i) with
    | .ok duration =>
      let (att, res, out) := runLoop envOf (i + 1) rest
      (c.title :: att, (c.title, duration) :: res, out)
    | .error e => ([c.title], [], .error e)

/-- Every command of the list, attempted at consecutive positions
starting at `i`, runs successfully (its `run_command` returns `Ok`). -/
def allSucceed (envOf : Nat → RunEnv) : Nat → List CommandEntry → Prop
  | _, [] => True
  | i, c :: rest =>
    (∃ d, run_command c (envOf i) = .ok d) ∧ allSucceed envOf (i + 1) rest

/-- Model of `UpCommand::run` (`src/cli.rs` 59-157).  In source order: fire
`send_start` when a PlatformX client is configured (result discarded);
apply the `--step` filter, failing with "no steps matched" before any
command when it stepMatches nothing, and printing the match listing when it
stepMatches more than one; run the loop; on failure fire `send_error` with
the elapsed time and the runner's message and return the
"A command failed" error; on completion print the "All set!" summary,
print the report when `--report` was given, fire `send_complete`, and
return `Ok`. -/
def upRun (report : Bool) (step : Option String) (cmds : List CommandEntry)
    (hasTelemetry : Bool) (_tele : TeleResults) (envOf : Nat → RunEnv)
    (clock : OrchClock) : UpOutcome :=
  let startCalls : List TeleCall := if hasTelemetry then [.start] else []
  match step with
  | some stepFilter =>
    let stepMatches := filterCommands stepFilter cmds
    if stepMatches.isEmpty then
      { teleCalls := startCalls, events := [], attempted := [], results := [],
        result := .error (.noStepsMatched stepFilter) }
    else
      let info : List OrchEvent :=
        if stepMatches.length > 1 then [.infoMatches (stepMatches.map (·.title))] else []
      let (att, res, out) := runLoop envOf 0 stepMatches
      match out with
      | .error e =>
        { teleCalls := startCalls ++
            (if hasTelemetry then [.error clock.atFailure e] else []),
          events := info ++ att.map .attempt,
          attempted := att, results := res,
          result := .error (.commandFailed e) }
      | .ok _ =>
        { teleCalls := startCalls ++
            (if hasTelemetry then [.complete clock.atCompletion] else []),
          events := info ++ att.map .attempt ++
            [.allSet clock.atCompletion] ++
            (if report then [.reportOut res clock.atCompletion] else []),
          attempted := att, results := res,
          result := .ok () }
  | none =>
    let (att, res, out) := runLoop envOf 0 cmds
    match out with
    | .error e =>
      { teleCalls := startCalls ++
          (if hasTelemetry then [.error clock.atFailure e] else []),
        events := att.map .attempt,
        attempted := att, results := res,
        result := .error (.commandFailed e) }
    | .ok _ =>
      { teleCalls := startCalls ++
          (if hasTelemetry then [.complete clock.atCompletion] else []),
        events := att.map .attempt ++ [.allSet clock.atCompletion] ++
          (if report then [.reportOut res clock.atCompletion] else []),
        attempted := att, results := res,
        result := .ok () }

/-- Model of `main` in `src/bin/getset.rs` (lines 9-15): a failed run prints the
error and exits with code 1; otherwise the process exits with code 0. -/
def mainExitCode (runResult : Except RunError Unit) : Nat :=
  match runResult with
  | .ok _ => 0
  | .error _ => 1

/-! ## Output Relay (`src/main.rs`, `run_command`)

The repository's piped dual-stream implementation lives in
`src/main.rs` (lines 61-159): the shell is spawned with
`Stdio::piped()` on stdout and stderr, one thread per stream reads it
line by line and sends each successfully read line into one shared
`mpsc` channel, and the main thread drains the channel, updating a
spinner with the latest line and buffering every line; after the
channel closes it waits for the child and, on failure, prints all
buffered lines.

The embedding: each stream is the finite list of `reader.lines()`
results yielded before end-of-stream (`Ok line` or a read error); the
channel's arrival order is any interleaving of the two send sequences
that preserves each sender's order. -/

/-- The `Output` enum of `src/main.rs` (lines 30-34): a line tagged with
its source stream. -/
inductive Output where
  | stdout (line : String)
  | stderr (line : String)
deriving Repr, DecidableEq

/-- One result of the `reader.lines()` iterator: a decoded line or a
read error (the error value itself is never inspected by the code). -/
abbrev ReadItem := Except Unit String

/-- The reader-thread loop of `src/main.rs` (lines 87-94 and 99-106):
`for line in reader.lines() { if let Ok(line) = line { tx.send(line) } }`.
An `Err` item is skipped — the iterator is not abandoned — so the sent
sequence is exactly the `Ok` payloads in stream order. -/
def sentLines (stream : List ReadItem) : List String :=
  match stream with
  | [] => []
  | .ok line :: rest => line :: sentLines rest
  | .error _ :: rest => sentLines rest

/-- What §4.1 of the specification says the reader thread does on a read
error: "a read error on one stream terminates that stream's line
production silently".  Stated from the spec's words, for comparison
with `sentLines` (the code): lines up to the first error are produced,
nothing after it. -/
def sentLinesSpec (stream : List ReadItem) : List String :=
  match stream with
  | [] => []
  | .ok line :: rest => line :: sentLinesSpec rest
  | .error _ :: _ => []

/-- Predicate `Interleave as bs ms`: `ms` is a merge of `as` and `bs` preserving
the internal order of each — the possible arrival orders at the shared
`mpsc` channel for two concurrent senders. -/
inductive Interleave : List Output → List Output → List Output → Prop where
  | nil : Interleave [] [] []
  | left {a : Output} {as bs ms : List Output} :
      Interleave as bs ms → Interleave (a :: as) bs (a :: ms)
  | right {b : Output} {as bs ms : List Output} :
      Interleave as bs ms → Interleave as (b :: bs) (b :: ms)

/-- The stdout payload of a relayed item, if it is one. -/
def stdoutLine : Output → Option String
  | .stdout line => some line
  | .stderr _ => none

/-- The stderr payload of a relayed item, if it is one. -/
def stderrLine : Output → Option String
  | .stderr line => some line
  | .stdout _ => none

/-- One observable step of `src/main.rs`'s `run_command`, in program
order: spinner updates during the relay loop, the `child.wait()` call,
the spinner teardown, and `println!` writes (which go to the process's
real stdout). -/
inductive Effect where
  /-- spinner update `pb.set_message(...)`: transient text, title plus latest line -/
  | spinnerSet (msg : String)
  /-- the `child.wait()` call -/
  | waitChild
  /-- the `pb.finish_and_clear()` call -/
  | finishClear
  /-- a `println!` line (written to the real stdout stream) -/
  | writeStdout (line : String)
  /-- a write to the real stderr stream (the code never performs one) -/
  | writeStderr (line : String)
deriving Repr, DecidableEq

/-- The line carried by a relayed item (both match arms of the drain
loop extract it the same way). -/
def payload : Output → String
  | .stdout l => l
  | .stderr l => l

/-- The channel-drain loop of `src/main.rs` (lines 115-136): for each
arriving item, update the spinner with the title and that line, and
append the line to `output_lines`; both arms treat their line the same
way.  Returns the effects of the loop and the buffered lines. -/
def relayLoop (title : String) (merged : List Output) :
    List Effect × List String :=
  match merged with
  | [] => ([], [])
  | item :: rest =>
    let (effs, buffered) := relayLoop title rest
    (.spinnerSet (title ++ " " ++ payload item) :: effs, payload item :: buffered)

/-- Environment of one `src/main.rs` `run_command` invocation: the spawn
result, the channel arrival order, and the `wait` result — an OS error
or the exit status as `(status.success(), format!("{}", status))`. -/
structure MainRunEnv where
  spawn : Except String Unit
  merged : List Output
  wait : Except String (Bool × String)
deriving Repr

/-- Model of `run_command` of `src/main.rs` (lines 61-159): spawn with piped
stdout/stderr, drain the relay channel (spinner updates + buffering),
then wait; on exit code 0 clear the spinner, print the title with a
check mark and return `Ok`; otherwise clear the spinner, print the
title with a cross **and then every buffered line** (all via `println!`,
i.e. to stdout), and return the formatted status error.  Returns the
effect trace and the result. -/
def mainRunCommand (cmd : CommandEntry) (env : MainRunEnv) :
    List Effect × Except String Unit :=
  match env.spawn with
  | .error e => ([], .error ("Failed to spawn command: " ++ e))
  | .ok _ =>
    let (relayEffs, buffered) := relayLoop cmd.title env.merged
    let pre := Effect.spinnerSet cmd.title :: relayEffs ++ [Effect.waitChild]
    match env.wait with
    | .error e => (pre, .error ("Failed to wait for command: " ++ e))
    | .ok (success, statusStr) =>
      if success then
        (pre ++ [.finishClear, .writeStdout (cmd.title ++ " ✓")], .ok ())
      else
        (pre ++ [.finishClear, .writeStdout (cmd.title ++ " ✗")] ++
           buffered.map .writeStdout,
         .error ("Command exited with status: " ++ statusStr))

/-- The stdio wiring of the `src/main.rs` spawn (lines 73-78):
`.stdout(Stdio::piped()).stderr(Stdio::piped())` (stdin left default). -/
def mainRunWiring : StreamWiring × StreamWiring :=
  (.piped, .piped)

/-! ## Helper lemmas -/

theorem leadsList_mono {as bs : List Char} (cs : List Char)
    (h : leadsList as bs = true) : leadsList as (bs ++ cs) = true := by
  induction as generalizing bs with
  | nil => rfl
  | cons a t ih =>
    cases bs with
    | nil => exact absurd h (by simp [leadsList])
    | cons b bt =>
      simp only [leadsList, Bool.and_eq_true] at h ⊢
      exact ⟨h.1, ih h.2⟩

theorem containsList_of_leads {needle hay : List Char}
    (h : leadsList needle hay = true) : containsList hay needle = true := by
  cases hay with
  | nil =>
    cases needle with
    | nil => rfl
    | cons n t => exact absurd h (by simp [leadsList])
  | cons b bt =>
    simp only [containsList, Bool.or_eq_true]
    left
    exact h

theorem string_data_append (s t : String) : (s ++ t).data = s.data ++ t.data :=
  rfl

/-- If `q` is an initial segment of `p` then any message starting with
`p` contains `q` — the shape of the `e.contains(...)` checks in
`run_command`'s fallback dispatch. -/
theorem strContains_head {p q : String} (m : String)
    (h : leadsList q.data p.data = true) : strContains (p ++ m) q = true := by
  unfold strContains
  rw [string_data_append]
  exact containsList_of_leads (leadsList_mono m.data h)

/-- A failed pseudo-terminal allocation routes `selectRun` to the piped
fallback, whatever the OS error message is. -/
theorem selectRun_of_ptyOpen_error {env : RunEnv} (cmd : CommandEntry)
    (m : String) (hpty : env.usePty = true)
    (hopen : env.pty.ptyOpen = .error m) :
    selectRun cmd env = run_without_pty cmd env.piped := by
  unfold selectRun run_with_pty
  rw [hpty, hopen]
  simp only [if_true]
  rw [strContains_head m (by decide)]
  simp

/-- A failed shell spawn in pseudo-terminal mode routes `selectRun` to
the piped fallback, whatever the OS error message is. -/
theorem selectRun_of_pty_spawn_error {env : RunEnv} (cmd : CommandEntry)
    (m : String) (hpty : env.usePty = true)
    (hopen : env.pty.ptyOpen = .ok ()) (hspawn : env.pty.spawn = .error m) :
    selectRun cmd env = run_without_pty cmd env.piped := by
  have h2 : strContains ("Failed to spawn command: " ++ m) "Failed to spawn command" = true :=
    strContains_head m (by decide)
  unfold selectRun run_with_pty
  rw [hpty, hopen, hspawn]
  simp only [if_true, h2, Bool.or_true]

/-- The relay loop's effects are exactly one spinner update per arriving
line, and its buffer is the lines in arrival order. -/
theorem relayLoop_eq (title : String) (merged : List Output) :
    relayLoop title merged =
      (merged.map (fun o => .spinnerSet (title ++ " " ++ payload o)),
       merged.map payload) := by
  induction merged with
  | nil => rfl
  | cons o rest ih => simp [relayLoop, ih]

/-- Interleaving is symmetric in its two producers. -/
theorem Interleave.symm {as bs ms : List Output} (h : Interleave as bs ms) :
    Interleave bs as ms := by
  induction h with
  | nil => exact .nil
  | left _ ih => exact .right ih
  | right _ ih => exact .left ih

/-- Projecting a merge through a filter that discards everything the
second producer sent recovers exactly what the first producer sent. -/
theorem Interleave.filterMap_left {α : Type} (f : Output → Option α)
    {as bs ms : List Output} (h : Interleave as bs ms)
    (hbs : ∀ b ∈ bs, f b = none) : ms.filterMap f = as.filterMap f := by
  induction h with
  | nil => rfl
  | @left a as' bs' ms' _ ih =>
    simp only [List.filterMap_cons]
    cases f a <;> simp [ih hbs]
  | @right b as' bs' ms' _ ih =>
    have hb : f b = none := hbs b (by simp)
    simp only [List.filterMap_cons, hb]
    exact ih fun x hx => hbs x (by simp [hx])

/-- When every command of the list succeeds, the loop attempts them all,
collects one `(title, duration)` per command, and reports `Ok`. -/
theorem runLoop_all_ok (envOf : Nat → RunEnv) (i : Nat)
    (cmds : List CommandEntry) (h : allSucceed envOf i cmds) :
    (runLoop envOf i cmds).1 = cmds.map (·.title) ∧
    (runLoop envOf i cmds).2.2 = .ok () := by
  induction cmds generalizing i with
  | nil => exact ⟨rfl, rfl⟩
  | cons c rest ih =>
    obtain ⟨⟨d, hd⟩, htail⟩ := h
    have ihr := ih (i + 1) htail
    simp only [runLoop, hd]
    constructor
    · simp [ihr.1]
    · simp [ihr.2]

/-- When every command of `pre` succeeds and the next command fails, the
loop attempts exactly `pre` and the failing command, stops with that
error, and never reaches anything after it. -/
theorem runLoop_fail_fast (envOf : Nat → RunEnv) (i : Nat)
    (pre : List CommandEntry) (c : CommandEntry) (rest : List CommandEntry)
    (e : String) (hpre : allSucceed envOf i pre)
    (hc : run_command c (envOf (i + pre.length)) = .error e) :
    (runLoop envOf i (pre ++ c :: rest)).1 = pre.map (·.title) ++ [c.title] ∧
    (runLoop envOf i (pre ++ c :: rest)).2.2 = .error e := by
  induction pre generalizing i with
  | nil =>
    simp only [List.length_nil, Nat.add_zero] at hc
    simp [runLoop, hc]
  | cons p ps ih =>
    obtain ⟨⟨d, hd⟩, htail⟩ := hpre
    have hc' : run_command c (envOf (i + 1 + ps.length)) = .error e := by
      have : i + 1 + ps.length = i + (ps.length + 1) := by omega
      rw [this]
      simpa using hc
    have ihr := ih (i + 1) htail hc'
    simp only [List.cons_append, runLoop, hd]
    constructor
    · simp [ihr.1]
    · simp [ihr.2]

/-! ## Claims -/

/-- C1 (amended): for every `CommandEntry` and OS behaviour, once the
selected execution mode yields an exit status, `run_command` returns
`Ok` with the elapsed duration exactly when the shell exited with code 0
(`status.success()`); for any non-zero exit it returns the fixed error
string `"Command exited with non-zero status"` — which carries neither
the command's title nor the numeric status — and a spawn/wait failure's
message propagates unchanged.  In all cases it returns (it never
terminates the process itself). -/
theorem C1_run_command_outcome (cmd : CommandEntry) (env : RunEnv) :
    (∀ s d, selectRun cmd env = .ok (s, d) →
      ((run_command cmd env = .ok d) ↔ s = true) ∧
      (s = false →
        run_command cmd env = .error "Command exited with non-zero status")) ∧
    (∀ e, selectRun cmd env = .error e → run_command cmd env = .error e) := by
  constructor
  · intro s d hsel
    unfold run_command
    rw [hsel]
    cases s <;> simp
  · intro e hsel
    unfold run_command
    rw [hsel]

/-- C1 witness: a concrete non-pseudo-terminal run whose shell exits 0
after 4 time units is reported as `Ok 4` by the theorem. -/
theorem C1_witness :
    run_command ⟨"Build", "make"⟩
      ⟨false, ⟨.ok (), 0, .ok (), .ok true, 0⟩, ⟨.ok (), .ok true, 4⟩⟩ =
      .ok 4 :=
  ((C1_run_command_outcome ⟨"Build", "make"⟩
      ⟨false, ⟨.ok (), 0, .ok (), .ok true, 0⟩, ⟨.ok (), .ok true, 4⟩⟩).1
    true 4 rfl).1.mpr rfl

/-- C1 counterexample: when the command titled `"Build"` exits non-zero,
the error `run_command` signals is the fixed string
`"Command exited with non-zero status"`, which does not contain the
command's title — refuting the claim that the failure carries the
command's title and exit status description. -/
theorem C1_counterexample :
    run_command ⟨"Build", "make"⟩
      ⟨false, ⟨.ok (), 0, .ok (), .ok true, 0⟩, ⟨.ok (), .ok false, 3⟩⟩ =
      .error "Command exited with non-zero status" ∧
    strContains "Command exited with non-zero status" "Build" = false :=
  ⟨rfl, by decide⟩

/-- C3: in pseudo-terminal mode, if pseudo-terminal allocation fails or
the shell spawn fails (with any OS message), `run_command`'s outcome is
exactly the outcome of the same command run in piped mode from scratch:
the allocation/spawn failure never surfaces, and the command's result is
determined solely by the piped-mode run. -/
theorem C3_pty_fallback (cmd : CommandEntry) (env : RunEnv) (m : String)
    (hpty : env.usePty = true)
    (hfail : env.pty.ptyOpen = .error m ∨
      (env.pty.ptyOpen = .ok () ∧ env.pty.spawn = .error m)) :
    run_command cmd env = run_command cmd ⟨false, env.pty, env.piped⟩ := by
  have hsel : selectRun cmd env = run_without_pty cmd env.piped := by
    rcases hfail with h | ⟨h1, h2⟩
    · exact selectRun_of_ptyOpen_error cmd m hpty h
    · exact selectRun_of_pty_spawn_error cmd m hpty h1 h2
  have hsel2 : selectRun cmd ⟨false, env.pty, env.piped⟩ =
      run_without_pty cmd env.piped := rfl
  unfold run_command
  rw [hsel, hsel2]

/-- C3 witness: a concrete run where pseudo-terminal allocation fails
with "no ptmx" and the piped re-run succeeds in 2 units: the outcome
equals the pure piped-mode outcome, namely `Ok 2`. -/
theorem C3_witness :
    run_command ⟨"Dev", "npm start"⟩
        ⟨true, ⟨.error "no ptmx", 1, .ok (), .ok true, 9⟩, ⟨.ok (), .ok true, 2⟩⟩ =
      run_command ⟨"Dev", "npm start"⟩
        ⟨false, ⟨.error "no ptmx", 1, .ok (), .ok true, 9⟩, ⟨.ok (), .ok true, 2⟩⟩ ∧
    run_command ⟨"Dev", "npm start"⟩
        ⟨false, ⟨.error "no ptmx", 1, .ok (), .ok true, 9⟩, ⟨.ok (), .ok true, 2⟩⟩ =
      .ok 2 :=
  ⟨C3_pty_fallback _ _ "no ptmx" rfl (Or.inl rfl), rfl⟩

/-- C4 counterexample: a pseudo-terminal run whose allocation succeeds
after 5 time units and whose spawn-to-wait span is 7 units reports an
elapsed duration of 12 — the timer starts before the allocation — not
the 7 units the claim requires (spawn to wait completion only). -/
theorem C4_counterexample :
    run_with_pty ⟨"Build", "make"⟩ ⟨.ok (), 5, .ok (), .ok true, 7⟩ =
      .ok (true, 5 + 7) ∧ 5 + 7 ≠ 7 :=
  ⟨rfl, by decide⟩

/-- C4 (amended): the reported elapsed duration is measured from
function entry of the chosen mode: in pseudo-terminal mode it equals the
pseudo-terminal allocation time plus the spawn-to-wait span (allocation
is included when it succeeds); in piped mode it equals the spawn-to-wait
span alone; and when a failed allocation forces the piped fallback, the
duration is that of the piped re-run alone (the failed attempt's time is
excluded). -/
theorem C4_elapsed_measurement (cmd : CommandEntry) (env : RunEnv) :
    (∀ s d, run_with_pty cmd env.pty = .ok (s, d) →
      d = env.pty.ptyOpenTime + env.pty.spawnToWaitTime) ∧
    (∀ s d, run_without_pty cmd env.piped = .ok (s, d) →
      d = env.piped.spawnToWaitTime) ∧
    (∀ m d, env.usePty = true → env.pty.ptyOpen = .error m →
      run_command cmd env = .ok d → d = env.piped.spawnToWaitTime) := by
  refine ⟨?_, ?_, ?_⟩
  · intro s d h
    cases h1 : env.pty.ptyOpen <;> cases h2 : env.pty.spawn <;>
      cases h3 : env.pty.wait <;> simp_all [run_with_pty]
  · intro s d h
    cases h2 : env.piped.spawn <;> cases h3 : env.piped.wait <;>
      simp_all [run_without_pty]
  · intro m d hpty hopen hrun
    unfold run_command at hrun
    rw [selectRun_of_ptyOpen_error cmd m hpty hopen] at hrun
    cases h2 : env.piped.spawn <;> cases h3 : env.piped.wait <;>
      simp_all [run_without_pty]
    split at hrun <;> simp_all

/-- C2: when every command before position `k` succeeds and the command
at position `k` fails, the orchestrator run (no filter) attempts exactly
the commands up to and including the failing one — no entry after the
failed one is ever attempted — and surfaces the failure. -/
theorem C2_fail_fast (report hasTele : Bool) (tele : TeleResults)
    (envOf : Nat → RunEnv) (clock : OrchClock)
    (pre : List CommandEntry) (c : CommandEntry) (rest : List CommandEntry)
    (e : String) (hpre : allSucceed envOf 0 pre)
    (hc : run_command c (envOf pre.length) = .error e) :
    (upRun report none (pre ++ c :: rest) hasTele tele envOf clock).attempted =
      pre.map (·.title) ++ [c.title] ∧
    (upRun report none (pre ++ c :: rest) hasTele tele envOf clock).result =
      .error (.commandFailed e) := by
  have h := runLoop_fail_fast envOf 0 pre c rest e hpre (by simpa using hc)
  rcases hEq : runLoop envOf 0 (pre ++ c :: rest) with ⟨att, res, out⟩
  rw [hEq] at h
  simp only at h
  unfold upRun
  rw [hEq, h.2]
  exact ⟨h.1, rfl⟩

/-- C2 witness: with `"One"` succeeding, `"Two"` failing and `"Three"`
listed after it, the run attempts only `"One"` and `"Two"` and fails. -/
theorem C2_witness :
    (upRun false none
        [⟨"One", "a"⟩, ⟨"Two", "b"⟩, ⟨"Three", "c"⟩] false ⟨.ok (), .ok (), .ok ()⟩
        (fun i => if i = 0
          then ⟨false, ⟨.ok (), 0, .ok (), .ok true, 0⟩, ⟨.ok (), .ok true, 1⟩⟩
          else ⟨false, ⟨.ok (), 0, .ok (), .ok true, 0⟩, ⟨.ok (), .ok false, 1⟩⟩)
        ⟨7, 9⟩).attempted = ["One", "Two"] ∧
    (upRun false none
        [⟨"One", "a"⟩, ⟨"Two", "b"⟩, ⟨"Three", "c"⟩] false ⟨.ok (), .ok (), .ok ()⟩
        (fun i => if i = 0
          then ⟨false, ⟨.ok (), 0, .ok (), .ok true, 0⟩, ⟨.ok (), .ok true, 1⟩⟩
          else ⟨false, ⟨.ok (), 0, .ok (), .ok true, 0⟩, ⟨.ok (), .ok false, 1⟩⟩)
        ⟨7, 9⟩).result = .error (.commandFailed "Command exited with non-zero status") :=
  C2_fail_fast false false ⟨.ok (), .ok (), .ok ()⟩ _ ⟨7, 9⟩
    [⟨"One", "a"⟩] ⟨"Two", "b"⟩ [⟨"Three", "c"⟩] _ ⟨⟨1, rfl⟩, trivial⟩ rfl

/-- C4 witness: at a concrete environment (allocation 5 units, run 7
units, piped run 6 units) the theorem yields 12 = 5 + 7 for the
successful pseudo-terminal run. -/
theorem C4_witness :
    run_with_pty ⟨"t", "c"⟩ ⟨.ok (), 5, .ok (), .ok true, 7⟩ =
      .ok (true, 12) ∧ (12 : Nat) = 5 + 7 :=
  ⟨rfl,
    (C4_elapsed_measurement ⟨"t", "c"⟩
      ⟨true, ⟨.ok (), 5, .ok (), .ok true, 7⟩, ⟨.ok (), .ok true, 6⟩⟩).1
      true 12 rfl⟩

/-- C6: the `--step` filter selects exactly the entries whose title
contains the filter as a case-insensitive substring, preserving the
original order (the selection is a sublist of the configured list);
when it matches nothing the run fails with the "no steps matched" error
and attempts no command; when it matches more than one entry the match
listing is printed first, before any command output. -/
theorem C6_step_filter (f : String) (cmds : List CommandEntry)
    (report hasTele : Bool) (tele : TeleResults) (envOf : Nat → RunEnv)
    (clock : OrchClock) :
    (filterCommands f cmds).Sublist cmds ∧
    (∀ c, c ∈ filterCommands f cmds ↔ c ∈ cmds ∧ titleMatches f c = true) ∧
    (filterCommands f cmds = [] →
      (upRun report (some f) cmds hasTele tele envOf clock).result =
        .error (.noStepsMatched f) ∧
      (upRun report (some f) cmds hasTele tele envOf clock).attempted = []) ∧
    (1 < (filterCommands f cmds).length →
      (upRun report (some f) cmds hasTele tele envOf clock).events.head? =
        some (.infoMatches ((filterCommands f cmds).map (·.title)))) := by
  refine ⟨List.filter_sublist cmds, ?_, ?_, ?_⟩
  · intro c
    simp [filterCommands, List.mem_filter]
  · intro h
    simp [upRun, h]
  · intro h
    have hne : (filterCommands f cmds).isEmpty = false := by
      cases hm : filterCommands f cmds with
      | nil => rw [hm] at h; simp at h
      | cons a t => simp
    simp only [upRun, hne, Bool.false_eq_true, if_false, if_pos h]
    rcases hEq : runLoop envOf 0 (filterCommands f cmds) with ⟨att, res, out⟩
    cases out with
    | ok u => simp
    | error e => simp

/-- C6 witness: filter `"prod"` against titles `"Deploy to Production"`
and `"Build"` selects exactly the former (case-insensitively), and with
an unmatchable filter `"zzz"` the run errors out before attempting any
command. -/
theorem C6_witness :
    filterCommands "prod" [⟨"Deploy to Production", "d"⟩, ⟨"Build", "b"⟩] =
      [⟨"Deploy to Production", "d"⟩] ∧
    ((upRun false (some "zzz") [⟨"Deploy to Production", "d"⟩, ⟨"Build", "b"⟩]
        false ⟨.ok (), .ok (), .ok ()⟩
        (fun _ => ⟨false, ⟨.ok (), 0, .ok (), .ok true, 0⟩, ⟨.ok (), .ok true, 1⟩⟩)
        ⟨0, 0⟩).result = .error (.noStepsMatched "zzz") ∧
      (upRun false (some "zzz") [⟨"Deploy to Production", "d"⟩, ⟨"Build", "b"⟩]
        false ⟨.ok (), .ok (), .ok ()⟩
        (fun _ => ⟨false, ⟨.ok (), 0, .ok (), .ok true, 0⟩, ⟨.ok (), .ok true, 1⟩⟩)
        ⟨0, 0⟩).attempted = []) :=
  ⟨by decide,
    (C6_step_filter "zzz" [⟨"Deploy to Production", "d"⟩, ⟨"Build", "b"⟩]
      false false ⟨.ok (), .ok (), .ok ()⟩
      (fun _ => ⟨false, ⟨.ok (), 0, .ok (), .ok true, 0⟩, ⟨.ok (), .ok true, 1⟩⟩)
      ⟨0, 0⟩).2.2.1 (by decide)⟩

/-- C9: the results of the PlatformX telemetry calls (start, error,
complete) are discarded by the orchestrator, so two runs differing only
in what the telemetry collaborator returns have identical outcomes:
same attempted sequence, same printed events, same results list, same
final result, same telemetry call sequence. -/
theorem C9_telemetry_results_ignored (report : Bool) (step : Option String)
    (cmds : List CommandEntry) (hasTele : Bool) (t1 t2 : TeleResults)
    (envOf : Nat → RunEnv) (clock : OrchClock) :
    upRun report step cmds hasTele t1 envOf clock =
      upRun report step cmds hasTele t2 envOf clock :=
  rfl

/-- C9 witness: a concrete successful run with all telemetry calls
failing equals the same run with all telemetry calls succeeding, and it
still completes with `Ok`. -/
theorem C9_witness :
    upRun false none [⟨"Echo", "echo hi"⟩] true
        ⟨.error "network down", .error "network down", .error "network down"⟩
        (fun _ => ⟨false, ⟨.ok (), 0, .ok (), .ok true, 0⟩, ⟨.ok (), .ok true, 1⟩⟩)
        ⟨0, 3⟩ =
      upRun false none [⟨"Echo", "echo hi"⟩] true ⟨.ok (), .ok (), .ok ()⟩
        (fun _ => ⟨false, ⟨.ok (), 0, .ok (), .ok true, 0⟩, ⟨.ok (), .ok true, 1⟩⟩)
        ⟨0, 3⟩ ∧
    (upRun false none [⟨"Echo", "echo hi"⟩] true
        ⟨.error "network down", .error "network down", .error "network down"⟩
        (fun _ => ⟨false, ⟨.ok (), 0, .ok (), .ok true, 0⟩, ⟨.ok (), .ok true, 1⟩⟩)
        ⟨0, 3⟩).result = .ok () :=
  ⟨C9_telemetry_results_ignored false none [⟨"Echo", "echo hi"⟩] true
      ⟨.error "network down", .error "network down", .error "network down"⟩
      ⟨.ok (), .ok (), .ok ()⟩
      (fun _ => ⟨false, ⟨.ok (), 0, .ok (), .ok true, 0⟩, ⟨.ok (), .ok true, 1⟩⟩)
      ⟨0, 3⟩,
    rfl⟩

/-- C10: a run without a filter in which every command succeeds — in
particular a run over an empty command list — completes successfully:
the result is `Ok`, the process exit code is 0, the "All set!" summary
with the total elapsed time is printed, and for the empty list no
command is ever attempted. -/
theorem C10_all_success_completes (report hasTele : Bool)
    (tele : TeleResults) (envOf : Nat → RunEnv) (clock : OrchClock)
    (cmds : List CommandEntry) (h : allSucceed envOf 0 cmds) :
    (upRun report none cmds hasTele tele envOf clock).result = .ok () ∧
    mainExitCode (upRun report none cmds hasTele tele envOf clock).result = 0 ∧
    OrchEvent.allSet clock.atCompletion ∈
      (upRun report none cmds hasTele tele envOf clock).events ∧
    (cmds = [] →
      (upRun report none cmds hasTele tele envOf clock).attempted = []) := by
  have hl := runLoop_all_ok envOf 0 cmds h
  rcases hEq : runLoop envOf 0 cmds with ⟨att, res, out⟩
  rw [hEq] at hl
  simp only at hl
  unfold upRun
  rw [hEq, hl.2]
  refine ⟨rfl, rfl, by simp, ?_⟩
  intro hnil
  rw [hl.1, hnil]
  rfl

/-- C10 witness: the empty command list with no filter completes with
`Ok`, exit code 0, the summary at 5 elapsed units, and no attempt. -/
theorem C10_witness :
    (upRun true none [] true ⟨.ok (), .ok (), .ok ()⟩
        (fun _ => ⟨false, ⟨.ok (), 0, .ok (), .ok true, 0⟩, ⟨.ok (), .ok true, 1⟩⟩)
        ⟨0, 5⟩).result = .ok () ∧
    mainExitCode (upRun true none [] true ⟨.ok (), .ok (), .ok ()⟩
        (fun _ => ⟨false, ⟨.ok (), 0, .ok (), .ok true, 0⟩, ⟨.ok (), .ok true, 1⟩⟩)
        ⟨0, 5⟩).result = 0 ∧
    OrchEvent.allSet 5 ∈
      (upRun true none [] true ⟨.ok (), .ok (), .ok ()⟩
        (fun _ => ⟨false, ⟨.ok (), 0, .ok (), .ok true, 0⟩, ⟨.ok (), .ok true, 1⟩⟩)
        ⟨0, 5⟩).events ∧
    ([] = ([] : List CommandEntry) →
      (upRun true none [] true ⟨.ok (), .ok (), .ok ()⟩
        (fun _ => ⟨false, ⟨.ok (), 0, .ok (), .ok true, 0⟩, ⟨.ok (), .ok true, 1⟩⟩)
        ⟨0, 5⟩).attempted = []) :=
  C10_all_success_completes true true ⟨.ok (), .ok (), .ok ()⟩
    (fun _ => ⟨false, ⟨.ok (), 0, .ok (), .ok true, 0⟩, ⟨.ok (), .ok true, 1⟩⟩)
    ⟨0, 5⟩ [] trivial

/-- C5 counterexample: a piped-mode command relays `"oops"` from stderr
and `"hello"` from stdout and exits 0; its effect trace contains no
write of `"oops"` to the real stderr stream and no write of `"hello"`
to the real stdout stream at all — each relayed line only updated the
spinner — refuting the claim that each relayed line is written to the
corresponding real output stream as it arrives.  Moreover the current
runner's non-pseudo-terminal spawn does not capture stdout as a pipe. -/
theorem C5_counterexample :
    (mainRunCommand ⟨"t", "c"⟩
        ⟨.ok (), [.stderr "oops", .stdout "hello"], .ok (true, "exit status: 0")⟩).1 =
      [.spinnerSet "t", .spinnerSet "t oops", .spinnerSet "t hello",
       .waitChild, .finishClear, .writeStdout "t ✓"] ∧
    Effect.writeStderr "oops" ∉
      [Effect.spinnerSet "t", .spinnerSet "t oops", .spinnerSet "t hello",
       .waitChild, .finishClear, .writeStdout "t ✓"] ∧
    Effect.writeStdout "hello" ∉
      [Effect.spinnerSet "t", .spinnerSet "t oops", .spinnerSet "t hello",
       .waitChild, .finishClear, .writeStdout "t ✓"] ∧
    runWithoutPtyWiring.2.1 ≠ StreamWiring.piped :=
  ⟨rfl, by decide, by decide, by decide⟩

/-- C5 (amended): in the piped implementation (`src/main.rs`) the shell
is spawned with stdout and stderr captured as pipes and both streams
are driven through the Output Relay, but before the exit is awaited the
observable effects are solely spinner updates — the title, then one
transient update per relayed line in arrival order; nothing is written
to the real output streams during the relay.  The buffered lines are
printed, all to the real stdout, only after the wait and only when the
command fails.  The current runner's non-pseudo-terminal mode
(`run_without_pty`) captures nothing: stdin, stdout and stderr are
inherited. -/
theorem C5_piped_mode (cmd : CommandEntry) (env : MainRunEnv)
    (hspawn : env.spawn = .ok ()) :
    (∃ tail, (mainRunCommand cmd env).1 =
      .spinnerSet cmd.title ::
        env.merged.map (fun o => .spinnerSet (cmd.title ++ " " ++ payload o)) ++
        Effect.waitChild :: tail) ∧
    (∀ st, env.wait = .ok (false, st) →
      (mainRunCommand cmd env).1 =
        .spinnerSet cmd.title ::
          env.merged.map (fun o => .spinnerSet (cmd.title ++ " " ++ payload o)) ++
          [Effect.waitChild, .finishClear, .writeStdout (cmd.title ++ " ✗")] ++
          (env.merged.map payload).map .writeStdout) ∧
    mainRunWiring = (StreamWiring.piped, StreamWiring.piped) ∧
    runWithoutPtyWiring = (.inherit, .inherit, .inherit) := by
  refine ⟨?_, ?_, rfl, rfl⟩
  · unfold mainRunCommand
    rw [hspawn]
    rw [relayLoop_eq]
    cases hw : env.wait with
    | error e => exact ⟨[], by simp⟩
    | ok p =>
      rcases p with ⟨s, st⟩
      cases s with
      | true =>
        exact ⟨[.finishClear, .writeStdout (cmd.title ++ " ✓")], by simp⟩
      | false =>
        exact ⟨[.finishClear, .writeStdout (cmd.title ++ " ✗")] ++
          (env.merged.map payload).map .writeStdout, by simp⟩
  · intro st hw
    unfold mainRunCommand
    rw [hspawn, relayLoop_eq, hw]
    simp

/-- C5 witness: a concrete relay of one stdout line before a failing
wait: the pre-wait effects are exactly the spinner updates, and the
buffered line is printed to stdout after the failure marker. -/
theorem C5_witness :
    (∃ tail, (mainRunCommand ⟨"t", "c"⟩
        ⟨.ok (), [.stdout "hello"], .ok (false, "exit status: 1")⟩).1 =
      .spinnerSet "t" ::
        ([Output.stdout "hello"].map (fun o => .spinnerSet ("t" ++ " " ++ payload o))) ++
        Effect.waitChild :: tail) ∧
    (mainRunCommand ⟨"t", "c"⟩
        ⟨.ok (), [.stdout "hello"], .ok (false, "exit status: 1")⟩).1 =
      .spinnerSet "t" ::
        ([Output.stdout "hello"].map (fun o => .spinnerSet ("t" ++ " " ++ payload o))) ++
        [Effect.waitChild, .finishClear, .writeStdout ("t" ++ " ✗")] ++
        (([Output.stdout "hello"].map payload).map .writeStdout) :=
  ⟨(C5_piped_mode ⟨"t", "c"⟩
      ⟨.ok (), [.stdout "hello"], .ok (false, "exit status: 1")⟩ rfl).1,
    (C5_piped_mode ⟨"t", "c"⟩
      ⟨.ok (), [.stdout "hello"], .ok (false, "exit status: 1")⟩ rfl).2.1
      "exit status: 1" rfl⟩

/-- C7: whatever order the two reader threads' sends arrive in at the
shared channel (any interleaving preserving each sender's order), the
relayed lines of each stream appear in the merged sequence in exactly
the order that stream produced them. -/
theorem C7_same_stream_order (s1 s2 : List ReadItem) (merged : List Output)
    (h : Interleave ((sentLines s1).map .stdout)
      ((sentLines s2).map .stderr) merged) :
    merged.filterMap stdoutLine = sentLines s1 ∧
    merged.filterMap stderrLine = sentLines s2 := by
  constructor
  · have he := h.filterMap_left stdoutLine ?_
    · rw [he, List.filterMap_map]
      have : stdoutLine ∘ Output.stdout = some := rfl
      rw [this, List.filterMap_some]
    · intro b hb
      rw [List.mem_map] at hb
      obtain ⟨l, _, rfl⟩ := hb
      rfl
  · have he := h.symm.filterMap_left stderrLine ?_
    · rw [he, List.filterMap_map]
      have : stderrLine ∘ Output.stderr = some := rfl
      rw [this, List.filterMap_some]
    · intro b hb
      rw [List.mem_map] at hb
      obtain ⟨l, _, rfl⟩ := hb
      rfl

/-- C7 witness: stdout lines `"a"`, `"b"` interleaved with stderr line
`"x"` as `[a, x, b]` still project to `["a", "b"]` and `["x"]`. -/
theorem C7_witness :
    ([Output.stdout "a", .stderr "x", .stdout "b"].filterMap stdoutLine =
      sentLines [.ok "a", .ok "b"]) ∧
    ([Output.stdout "a", .stderr "x", .stdout "b"].filterMap stderrLine =
      sentLines [.ok "x"]) :=
  C7_same_stream_order [.ok "a", .ok "b"] [.ok "x"]
    [.stdout "a", .stderr "x", .stdout "b"]
    (.left (.right (.left .nil)))

/-- C8 counterexample: a stream yielding `Ok "a"`, a read error, then
`Ok "b"` sends `["a", "b"]` — the reader loop skips the errored read
and keeps reading — whereas the claimed behaviour (the error terminates
that stream's production) would send only `["a"]`. -/
theorem C8_counterexample :
    sentLines [.ok "a", .error (), .ok "b"] = ["a", "b"] ∧
    sentLinesSpec [.ok "a", .error (), .ok "b"] = ["a"] ∧
    sentLines [.ok "a", .error (), .ok "b"] ≠
      sentLinesSpec [.ok "a", .error (), .ok "b"] :=
  ⟨rfl, rfl, by decide⟩

/-- C8 (amended): a read error on one stream causes that read to be
dropped silently — no crash, no error surfaced, and reading continues
with the subsequent lines until end-of-stream — and it does not prevent
the other stream from continuing: however the merged arrivals
interleave, the other stream still delivers all its lines in order. -/
theorem C8_read_error_skipped (pre post : List ReadItem) :
    sentLines (pre ++ .error () :: post) = sentLines pre ++ sentLines post ∧
    (∀ s2 merged,
      Interleave ((sentLines (pre ++ .error () :: post)).map .stdout)
        ((sentLines s2).map .stderr) merged →
      merged.filterMap stderrLine = sentLines s2) := by
  constructor
  · induction pre with
    | nil => rfl
    | cons r t ih =>
      cases r with
      | ok l =>
        show l :: sentLines (t ++ .error () :: post) =
          l :: (sentLines t ++ sentLines post)
        rw [ih]
      | error u =>
        show sentLines (t ++ .error () :: post) =
          sentLines t ++ sentLines post
        exact ih
  · intro s2 merged h
    have he := h.symm.filterMap_left stderrLine ?_
    · rw [he, List.filterMap_map]
      have : stderrLine ∘ Output.stderr = some := rfl
      rw [this, List.filterMap_some]
    · intro b hb
      rw [List.mem_map] at hb
      obtain ⟨l, _, rfl⟩ := hb
      rfl

/-- C8 witness: at the concrete errored stream `[Ok "a", Err, Ok "b"]`
production continues past the error, and a concrete interleaving with a
stderr stream `["x"]` still delivers `["x"]`. -/
theorem C8_witness :
    sentLines ([.ok "a"] ++ .error () :: [.ok "b"]) =
      sentLines [.ok "a"] ++ sentLines [.ok "b"] ∧
    [Output.stdout "a", .stderr "x", .stdout "b"].filterMap stderrLine =
      sentLines [.ok "x"] :=
  ⟨(C8_read_error_skipped [.ok "a"] [.ok "b"]).1,
    (C8_read_error_skipped [.ok "a"] [.ok "b"]).2 [.ok "x"]
      [.stdout "a", .stderr "x", .stdout "b"]
      (.left (.right (.left .nil)))⟩

end Getset
